import Mathlib

/-!
Verification of the gap-and-go strategy engine in `bot/strategy/gap_and_go.py`
(class `GapAndGo`), over a shallow embedding of the code.

Modelling conventions:

* Prices are rationals (`ℚ`).  Python floats carry a `float("-inf")` sentinel
  in two places (`premarket_high.get(symbol, float("-inf"))` on line 102 and
  the guard `ref_high == float("-inf")` on line 116); with rational bar data
  every value ever stored in `premarket_high` is `max` of bar highs or a bar
  open, hence finite, so map absence (`Option.none`) is the only way the
  guard on line 116 can fire and the sentinel itself never needs a
  representation.
* `_get_eastern_time` (lines 51-59) converts the bar timestamp from UTC to
  US/Eastern wall-clock time and returns `None` exactly when the timestamp is
  `None`.  The embedding carries the Eastern wall-clock instant directly in
  the bar (`timestamp : Option ETime`), so the conversion is the identity;
  all classifier arithmetic (`_is_premarket`, `_is_market_hours`,
  `_should_exit`, the minutes-since-open computation) is translated verbatim
  on the Eastern components.  Sub-second precision is dropped: Python `time`
  comparison also orders by microsecond, which no claim exercises.
* The several parallel dicts keyed by symbol (`premarket_high`,
  `previous_close`, `first_break_done`, `buffer`, `in_position`,
  `current_date`) are read and written by `on_bar` only at the key `symbol`
  of the call, so the embedding keeps the state of one symbol as a record of
  `Option` fields, `none` meaning the key is absent from the dict.
* `Signal` objects are constructed by this strategy only as
  `Signal(SignalType.BUY)` / `Signal(SignalType.SELL)` with every other field
  defaulted, so an emitted signal is modelled by its `SignalType`.
-/

namespace AlpacaBot

/-- SignalType enum from `bot/state.py`. -/
inductive SignalType where
  | buy
  | sell
  | flat
deriving DecidableEq, Repr

/-- Eastern wall-clock instant: the calendar date string produced by
`strftime("%Y-%m-%d")` plus hour / minute / second components. -/
structure ETime where
  date : String
  hour : Nat
  minute : Nat
  second : Nat
deriving DecidableEq, Repr

/-- Seconds since midnight; Python `datetime.time` values compare
lexicographically by (hour, minute, second), which this collapses to. -/
def ETime.timeOfDay (t : ETime) : Nat :=
  t.hour * 3600 + t.minute * 60 + t.second

/-- OHLCV bar from `bot/state.py`.  The timestamp is stored already converted
to Eastern time (see the module conventions above); `open_` renders the
Python field `open`, which is a reserved word in Lean. -/
structure Bar where
  timestamp : Option ETime
  open_ : ℚ
  high : ℚ
  low : ℚ
  close : ℚ
  volume : Nat
deriving DecidableEq, Repr

/-- Bounded buffer modelling `collections.deque` with a `maxlen`: appending
to a full deque drops elements from the left. -/
structure Deque where
  maxlen : Nat
  data : List ℚ
deriving DecidableEq, Repr

/-- Fresh `deque(maxlen := m)`. -/
def Deque.empty (m : Nat) : Deque := ⟨m, []⟩

/-- Right append with the maxlen discipline of `deque.append`. -/
def Deque.push (d : Deque) (x : ℚ) : Deque :=
  let ys := d.data ++ [x]
  ⟨d.maxlen, if d.maxlen < ys.length then ys.drop (ys.length - d.maxlen) else ys⟩

/-- Constructor parameters of `GapAndGo.__init__` (lines 16-31), with the
source defaults.  `confirm_bars`, `trade_cutoff_minute` and the exit fields
are Python ints used in the non-negative range the spec documents. -/
structure GapConfig where
  min_gap_pct : ℚ := 3
  max_price : ℚ := 50
  max_float_m : ℚ := 500
  confirm_bars : Nat := 0
  trade_cutoff_minute : Nat := 5
  exit_time_hour : Nat := 15
  exit_time_minute : Nat := 0
deriving DecidableEq, Repr

/-- Per-symbol slice of the engine state: the entry at one symbol of each of
the parallel dicts initialised on lines 34-39.  `none` is an absent key. -/
structure SymState where
  premarket_high : Option ℚ
  previous_close : Option ℚ
  first_break_done : Option Bool
  buffer : Option Deque
  in_position : Option Bool
  current_date : Option String
deriving DecidableEq, Repr

/-- State of a symbol never seen before (all dicts miss the key), as after
`on_start` (lines 43-49) clears every dict. -/
def SymState.init : SymState := ⟨none, none, none, none, none, none⟩

/-- Premarket test of `_is_premarket` (lines 61-64): 04:00 ≤ t < 09:30. -/
def is_premarket (t : ETime) : Bool :=
  decide (4 * 3600 ≤ t.timeOfDay ∧ t.timeOfDay < 9 * 3600 + 30 * 60)

/-- Market-hours test of `_is_market_hours` (lines 66-69):
09:30 ≤ t ≤ 16:00, the right endpoint included. -/
def is_market_hours (t : ETime) : Bool :=
  decide (9 * 3600 + 30 * 60 ≤ t.timeOfDay ∧ t.timeOfDay ≤ 16 * 3600)

/-- Exit-time test of `_should_exit` (lines 71-75). -/
def should_exit (cfg : GapConfig) (t : ETime) : Bool :=
  decide (cfg.exit_time_hour * 3600 + cfg.exit_time_minute * 60 ≤ t.timeOfDay)

/-- Daily reset of `_reset_daily_state` (lines 77-84): when the stored date
differs from the bar's date, record the new date, clear the breakout flag,
replace the buffer by an empty deque of capacity `max 1 confirm_bars`, clear
the position flag, and deliberately keep `premarket_high` (line 84). -/
def reset_daily_state (cfg : GapConfig) (st : SymState) (date_str : String) :
    SymState :=
  if st.current_date = some date_str then st
  else { st with
    current_date := some date_str
    first_break_done := some false
    buffer := some (Deque.empty (max 1 cfg.confirm_bars))
    in_position := some false }

/-- Reference-price resolution of lines 114-122: the stored premarket high
when present (always finite over ℚ, see the module conventions), else the
previous close, else this bar's open, which is then persisted into
`premarket_high`. -/
def resolve_ref (st : SymState) (bar : Bar) : ℚ × SymState :=
  match st.premarket_high with
  | some r => (r, st)
  | none =>
    match st.previous_close with
    | some r => (r, st)
    | none => (bar.open_, { st with premarket_high := some bar.open_ })

/-- Minutes elapsed since 09:30, computed from the Eastern (hour, minute)
components exactly as on line 140; the subtraction is over ℤ as in Python. -/
def minutes_since_open (t : ETime) : Int :=
  ((t.hour : Int) - 9) * 60 + ((t.minute : Int) - 30)

/-- Premarket accumulation of lines 102-103: the new stored value is
`max(premarket_high.get(symbol, float("-inf")), bar.high)`, where key
absence plays the role of the `-inf` default. -/
def premarket_update (ph : Option ℚ) (h : ℚ) : ℚ :=
  match ph with
  | none => h
  | some p => max p h

/-- Breakout predicate of lines 152-157, evaluated on the buffer after this
bar's close has been appended: high and close both at or above the
reference, and when a confirmation count is configured the buffer must hold
exactly that many closes, all at or above the reference. -/
def broke_pred (cfg : GapConfig) (ref_high : ℚ) (bar : Bar) (buf : Deque) :
    Bool :=
  let broke0 := decide (ref_high ≤ bar.high) && decide (ref_high ≤ bar.close)
  if 0 < cfg.confirm_bars then
    broke0 && decide (buf.data.length = cfg.confirm_bars) &&
      buf.data.all (fun x => decide (ref_high ≤ x))
  else broke0

/-- Entry logic of lines 138-164, reached when not in a position: enforce
the cutoff window (lines 139-142) and the one-entry-per-day guard (lines
145-146), then append the close to the buffer (`setdefault` creates it when
the key is absent, lines 149-150) and test the breakout predicate; on a
breakout set both flags and emit BUY. -/
def entry_step (cfg : GapConfig) (ref_high : ℚ) (st : SymState) (et : ETime)
    (bar : Bar) : SymState × Option SignalType :=
  if (cfg.trade_cutoff_minute : Int) < minutes_since_open et then
    (st, none)
  else if st.first_break_done.getD false then
    (st, none)
  else
    let buf := (st.buffer.getD
      (Deque.empty (max 1 cfg.confirm_bars))).push bar.close
    if broke_pred cfg ref_high bar buf then
      ({ st with buffer := some buf, first_break_done := some true,
                 in_position := some true }, some SignalType.buy)
    else
      ({ st with buffer := some buf }, none)

/-- Market-hours logic of lines 112-164: resolve the effective reference
(possibly persisting a first-day open), then either manage an open position
(exit at or after the configured time, lines 125-136) or run the entry
logic. -/
def market_step (cfg : GapConfig) (st : SymState) (et : ETime) (bar : Bar) :
    SymState × Option SignalType :=
  let rs := resolve_ref st bar
  let ref_high := rs.1
  let st := rs.2
  if st.in_position.getD false then
    if should_exit cfg et then
      ({ st with in_position := some false }, some SignalType.sell)
    else
      (st, none)
  else
    entry_step cfg ref_high st et bar

/-- Body of `on_bar` (lines 100-164) after the timestamp has been classified
and the daily reset applied to `st`.  Branches in source order: premarket
accumulation (lines 101-104), after-hours close recording (lines 107-110),
then the market-hours step. -/
def process_bar (cfg : GapConfig) (st : SymState) (et : ETime) (bar : Bar) :
    SymState × Option SignalType :=
  if is_premarket et then
    ({ st with premarket_high := some (premarket_update st.premarket_high bar.high) }, none)
  else if !(is_market_hours et) then
    ({ st with previous_close := some bar.close }, none)
  else
    market_step cfg st et bar

/-- One call of `GapAndGo.on_bar` (lines 86-164) restricted to the calling
symbol's state: a bar with no timestamp is skipped with no mutation (lines
93-95); otherwise the date string is taken from the Eastern time (line 97),
the daily reset runs (line 98) and the classified body executes. -/
def on_bar (cfg : GapConfig) (st : SymState) (bar : Bar) :
    SymState × Option SignalType :=
  match bar.timestamp with
  | none => (st, none)
  | some et => process_bar cfg (reset_daily_state cfg st et.date) et bar

/-- Sequential driver: fold `on_bar` over a list of bars for one symbol,
collecting the per-bar signal outputs in order. -/
def run_bars (cfg : GapConfig) (st : SymState) :
    List Bar → SymState × List (Option SignalType)
  | [] => (st, [])
  | b :: bs =>
    let r := on_bar cfg st b
    let rest := run_bars cfg r.1 bs
    (rest.1, r.2 :: rest.2)

/-! Helper lemmas: what each phase of the step function can and cannot touch. -/

lemma resolve_ref_in_position (st : SymState) (bar : Bar) :
    (resolve_ref st bar).2.in_position = st.in_position := by
  unfold resolve_ref
  cases st.premarket_high <;> cases st.previous_close <;> rfl

lemma resolve_ref_first_break_done (st : SymState) (bar : Bar) :
    (resolve_ref st bar).2.first_break_done = st.first_break_done := by
  unfold resolve_ref
  cases st.premarket_high <;> cases st.previous_close <;> rfl

lemma resolve_ref_buffer (st : SymState) (bar : Bar) :
    (resolve_ref st bar).2.buffer = st.buffer := by
  unfold resolve_ref
  cases st.premarket_high <;> cases st.previous_close <;> rfl

lemma resolve_ref_current_date (st : SymState) (bar : Bar) :
    (resolve_ref st bar).2.current_date = st.current_date := by
  unfold resolve_ref
  cases st.premarket_high <;> cases st.previous_close <;> rfl

lemma resolve_ref_premarket_high (st : SymState) (bar : Bar) (r : ℚ)
    (h : st.premarket_high = some r) :
    (resolve_ref st bar).2.premarket_high = some r := by
  unfold resolve_ref
  rw [h]
  exact h

lemma resolve_ref_of_premarket (st : SymState) (bar : Bar) (r : ℚ)
    (h : st.premarket_high = some r) :
    resolve_ref st bar = (r, st) := by
  unfold resolve_ref
  rw [h]

lemma market_not_premarket (et : ETime) (h : is_market_hours et = true) :
    is_premarket et = false := by
  simp only [is_market_hours, decide_eq_true_eq] at h
  simp only [is_premarket, decide_eq_false_iff_not, not_and, not_lt]
  omega

lemma getD_false_iff (o : Option Bool) : o.getD false = true ↔ o = some true := by
  cases o <;> simp

/-! Branch equations: one lemma per reachable branch of the step functions. -/

lemma entry_step_late (cfg : GapConfig) (r : ℚ) (st : SymState) (et : ETime) (bar : Bar)
    (h : (cfg.trade_cutoff_minute : Int) < minutes_since_open et) :
    entry_step cfg r st et bar = (st, none) := by
  unfold entry_step
  rw [if_pos h]

lemma entry_step_flagged (cfg : GapConfig) (r : ℚ) (st : SymState) (et : ETime) (bar : Bar)
    (h1 : ¬ (cfg.trade_cutoff_minute : Int) < minutes_since_open et)
    (h2 : st.first_break_done.getD false = true) :
    entry_step cfg r st et bar = (st, none) := by
  unfold entry_step
  rw [if_neg h1, if_pos h2]

lemma entry_step_eval (cfg : GapConfig) (r : ℚ) (st : SymState) (et : ETime) (bar : Bar)
    (h1 : ¬ (cfg.trade_cutoff_minute : Int) < minutes_since_open et)
    (h2 : st.first_break_done.getD false = false) :
    entry_step cfg r st et bar =
      (if broke_pred cfg r bar
          ((st.buffer.getD (Deque.empty (max 1 cfg.confirm_bars))).push bar.close) then
        ({ st with
            buffer := some ((st.buffer.getD
              (Deque.empty (max 1 cfg.confirm_bars))).push bar.close),
            first_break_done := some true,
            in_position := some true }, some SignalType.buy)
      else
        ({ st with buffer := some ((st.buffer.getD
            (Deque.empty (max 1 cfg.confirm_bars))).push bar.close) }, none)) := by
  unfold entry_step
  rw [if_neg h1, h2]
  rfl

lemma market_step_pos_exit (cfg : GapConfig) (st : SymState) (et : ETime) (bar : Bar)
    (hpos : (resolve_ref st bar).2.in_position.getD false = true)
    (hex : should_exit cfg et = true) :
    market_step cfg st et bar =
      ({ (resolve_ref st bar).2 with in_position := some false },
        some SignalType.sell) := by
  unfold market_step
  dsimp only
  rw [hpos, hex]
  rfl

lemma market_step_pos_hold (cfg : GapConfig) (st : SymState) (et : ETime) (bar : Bar)
    (hpos : (resolve_ref st bar).2.in_position.getD false = true)
    (hex : should_exit cfg et = false) :
    market_step cfg st et bar = ((resolve_ref st bar).2, none) := by
  unfold market_step
  dsimp only
  rw [hpos, hex]
  rfl

lemma market_step_entry (cfg : GapConfig) (st : SymState) (et : ETime) (bar : Bar)
    (hpos : (resolve_ref st bar).2.in_position.getD false = false) :
    market_step cfg st et bar =
      entry_step cfg (resolve_ref st bar).1 (resolve_ref st bar).2 et bar := by
  unfold market_step
  dsimp only
  rw [hpos]
  rfl

lemma process_bar_premarket_eq (cfg : GapConfig) (st : SymState) (et : ETime) (bar : Bar)
    (h : is_premarket et = true) :
    process_bar cfg st et bar =
      ({ st with premarket_high := some (premarket_update st.premarket_high bar.high) }, none) := by
  unfold process_bar
  rw [h]
  rfl

lemma process_bar_afterhours_eq (cfg : GapConfig) (st : SymState) (et : ETime) (bar : Bar)
    (h1 : is_premarket et = false) (h2 : is_market_hours et = false) :
    process_bar cfg st et bar = ({ st with previous_close := some bar.close }, none) := by
  unfold process_bar
  rw [h1, h2]
  rfl

lemma process_bar_market_eq (cfg : GapConfig) (st : SymState) (et : ETime) (bar : Bar)
    (h : is_market_hours et = true) :
    process_bar cfg st et bar = market_step cfg st et bar := by
  unfold process_bar
  rw [market_not_premarket et h, h]
  rfl



lemma entry_step_sig (cfg : GapConfig) (r : ℚ) (st : SymState) (et : ETime) (bar : Bar) :
    (entry_step cfg r st et bar).2 = some SignalType.buy ∨
    (entry_step cfg r st et bar).2 = none := by
  by_cases hlate : (cfg.trade_cutoff_minute : Int) < minutes_since_open et
  · rw [entry_step_late cfg r st et bar hlate]
    right
    rfl
  · by_cases hflag : st.first_break_done.getD false = true
    · rw [entry_step_flagged cfg r st et bar hlate hflag]
      right
      rfl
    · rw [Bool.not_eq_true] at hflag
      rw [entry_step_eval cfg r st et bar hlate hflag]
      by_cases hbroke : broke_pred cfg r bar
          ((st.buffer.getD (Deque.empty (max 1 cfg.confirm_bars))).push bar.close) = true
      · rw [if_pos hbroke]
        left
        rfl
      · rw [if_neg hbroke]
        right
        rfl

lemma entry_step_buy (cfg : GapConfig) (r : ℚ) (st : SymState) (et : ETime) (bar : Bar)
    (h : (entry_step cfg r st et bar).2 = some SignalType.buy) :
    st.first_break_done.getD false = false ∧
    (entry_step cfg r st et bar).1.in_position = some true ∧
    (entry_step cfg r st et bar).1.first_break_done = some true := by
  unfold entry_step at h ⊢
  dsimp only at h ⊢
  split_ifs at h ⊢
  all_goals simp_all

lemma entry_step_none (cfg : GapConfig) (r : ℚ) (st : SymState) (et : ETime) (bar : Bar)
    (h : (entry_step cfg r st et bar).2 = none) :
    (entry_step cfg r st et bar).1.in_position = st.in_position ∧
    (entry_step cfg r st et bar).1.first_break_done = st.first_break_done := by
  unfold entry_step at h ⊢
  dsimp only at h ⊢
  split_ifs at h ⊢ <;> simp_all

lemma entry_step_current_date (cfg : GapConfig) (r : ℚ) (st : SymState) (et : ETime) (bar : Bar) :
    (entry_step cfg r st et bar).1.current_date = st.current_date := by
  unfold entry_step
  dsimp only
  split_ifs <;> rfl

lemma entry_step_premarket_high (cfg : GapConfig) (r : ℚ) (st : SymState) (et : ETime) (bar : Bar) :
    (entry_step cfg r st et bar).1.premarket_high = st.premarket_high := by
  unfold entry_step
  dsimp only
  split_ifs <;> rfl

lemma process_bar_sell (cfg : GapConfig) (st : SymState) (et : ETime) (bar : Bar)
    (h : (process_bar cfg st et bar).2 = some SignalType.sell) :
    st.in_position = some true ∧
    (process_bar cfg st et bar).1.in_position = some false ∧
    (process_bar cfg st et bar).1.first_break_done = st.first_break_done ∧
    (process_bar cfg st et bar).1.current_date = st.current_date := by
  by_cases hp : is_premarket et = true
  · rw [process_bar_premarket_eq cfg st et bar hp] at h
    simp at h
  · rw [Bool.not_eq_true] at hp
    by_cases hm : is_market_hours et = true
    · rw [process_bar_market_eq cfg st et bar hm] at h ⊢
      by_cases hpos : (resolve_ref st bar).2.in_position.getD false = true
      · by_cases hex : should_exit cfg et = true
        · rw [market_step_pos_exit cfg st et bar hpos hex] at h ⊢
          rw [resolve_ref_in_position, getD_false_iff] at hpos
          refine ⟨hpos, rfl, ?_, ?_⟩
          · simpa using resolve_ref_first_break_done st bar
          · simpa using resolve_ref_current_date st bar
        · rw [Bool.not_eq_true] at hex
          rw [market_step_pos_hold cfg st et bar hpos hex] at h
          simp at h
      · rw [Bool.not_eq_true] at hpos
        rw [market_step_entry cfg st et bar hpos] at h
        rcases entry_step_sig cfg (resolve_ref st bar).1 (resolve_ref st bar).2 et bar with hs | hs <;>
          · rw [hs] at h
            simp at h
    · rw [Bool.not_eq_true] at hm
      rw [process_bar_afterhours_eq cfg st et bar hp hm] at h
      simp at h



lemma process_bar_buy (cfg : GapConfig) (st : SymState) (et : ETime) (bar : Bar)
    (h : (process_bar cfg st et bar).2 = some SignalType.buy) :
    st.in_position.getD false = false ∧
    st.first_break_done.getD false = false ∧
    (process_bar cfg st et bar).1.in_position = some true ∧
    (process_bar cfg st et bar).1.first_break_done = some true ∧
    (process_bar cfg st et bar).1.current_date = st.current_date := by
  by_cases hp : is_premarket et = true
  · rw [process_bar_premarket_eq cfg st et bar hp] at h
    simp at h
  · rw [Bool.not_eq_true] at hp
    by_cases hm : is_market_hours et = true
    · rw [process_bar_market_eq cfg st et bar hm] at h ⊢
      by_cases hpos : (resolve_ref st bar).2.in_position.getD false = true
      · by_cases hex : should_exit cfg et = true
        · rw [market_step_pos_exit cfg st et bar hpos hex] at h
          simp at h
        · rw [Bool.not_eq_true] at hex
          rw [market_step_pos_hold cfg st et bar hpos hex] at h
          simp at h
      · rw [Bool.not_eq_true] at hpos
        rw [market_step_entry cfg st et bar hpos] at h ⊢
        have hb := entry_step_buy cfg (resolve_ref st bar).1 (resolve_ref st bar).2 et bar h
        rw [resolve_ref_first_break_done] at hb
        rw [resolve_ref_in_position] at hpos
        refine ⟨hpos, hb.1, hb.2.1, hb.2.2, ?_⟩
        rw [entry_step_current_date, resolve_ref_current_date]
    · rw [Bool.not_eq_true] at hm
      rw [process_bar_afterhours_eq cfg st et bar hp hm] at h
      simp at h

lemma process_bar_none (cfg : GapConfig) (st : SymState) (et : ETime) (bar : Bar)
    (h : (process_bar cfg st et bar).2 = none) :
    (process_bar cfg st et bar).1.in_position = st.in_position ∧
    (process_bar cfg st et bar).1.first_break_done = st.first_break_done := by
  by_cases hp : is_premarket et = true
  · rw [process_bar_premarket_eq cfg st et bar hp]
    exact ⟨rfl, rfl⟩
  · rw [Bool.not_eq_true] at hp
    by_cases hm : is_market_hours et = true
    · rw [process_bar_market_eq cfg st et bar hm] at h ⊢
      by_cases hpos : (resolve_ref st bar).2.in_position.getD false = true
      · by_cases hex : should_exit cfg et = true
        · rw [market_step_pos_exit cfg st et bar hpos hex] at h
          simp at h
        · rw [Bool.not_eq_true] at hex
          rw [market_step_pos_hold cfg st et bar hpos hex]
          exact ⟨resolve_ref_in_position st bar, resolve_ref_first_break_done st bar⟩
      · rw [Bool.not_eq_true] at hpos
        rw [market_step_entry cfg st et bar hpos] at h ⊢
        have hn := entry_step_none cfg (resolve_ref st bar).1 (resolve_ref st bar).2 et bar h
        rw [resolve_ref_in_position, resolve_ref_first_break_done] at hn
        exact hn
    · rw [Bool.not_eq_true] at hm
      rw [process_bar_afterhours_eq cfg st et bar hp hm]
      exact ⟨rfl, rfl⟩

lemma process_bar_no_flat (cfg : GapConfig) (st : SymState) (et : ETime) (bar : Bar) :
    (process_bar cfg st et bar).2 ≠ some SignalType.flat := by
  by_cases hp : is_premarket et = true
  · rw [process_bar_premarket_eq cfg st et bar hp]
    simp
  · rw [Bool.not_eq_true] at hp
    by_cases hm : is_market_hours et = true
    · rw [process_bar_market_eq cfg st et bar hm]
      by_cases hpos : (resolve_ref st bar).2.in_position.getD false = true
      · by_cases hex : should_exit cfg et = true
        · rw [market_step_pos_exit cfg st et bar hpos hex]
          simp
        · rw [Bool.not_eq_true] at hex
          rw [market_step_pos_hold cfg st et bar hpos hex]
          simp
      · rw [Bool.not_eq_true] at hpos
        rw [market_step_entry cfg st et bar hpos]
        rcases entry_step_sig cfg (resolve_ref st bar).1 (resolve_ref st bar).2 et bar with hs | hs <;>
          simp [hs]
    · rw [Bool.not_eq_true] at hm
      rw [process_bar_afterhours_eq cfg st et bar hp hm]
      simp

lemma process_bar_current_date (cfg : GapConfig) (st : SymState) (et : ETime) (bar : Bar) :
    (process_bar cfg st et bar).1.current_date = st.current_date := by
  by_cases hp : is_premarket et = true
  · rw [process_bar_premarket_eq cfg st et bar hp]
  · rw [Bool.not_eq_true] at hp
    by_cases hm : is_market_hours et = true
    · rw [process_bar_market_eq cfg st et bar hm]
      by_cases hpos : (resolve_ref st bar).2.in_position.getD false = true
      · by_cases hex : should_exit cfg et = true
        · rw [market_step_pos_exit cfg st et bar hpos hex]
          simpa using resolve_ref_current_date st bar
        · rw [Bool.not_eq_true] at hex
          rw [market_step_pos_hold cfg st et bar hpos hex]
          exact resolve_ref_current_date st bar
      · rw [Bool.not_eq_true] at hpos
        rw [market_step_entry cfg st et bar hpos, entry_step_current_date]
        exact resolve_ref_current_date st bar
    · rw [Bool.not_eq_true] at hm
      rw [process_bar_afterhours_eq cfg st et bar hp hm]

lemma process_bar_premarket_mono (cfg : GapConfig) (st : SymState) (et : ETime) (bar : Bar)
    (r : ℚ) (hr : st.premarket_high = some r) :
    ∃ q, (process_bar cfg st et bar).1.premarket_high = some q ∧ r ≤ q := by
  by_cases hp : is_premarket et = true
  · rw [process_bar_premarket_eq cfg st et bar hp]
    refine ⟨premarket_update st.premarket_high bar.high, rfl, ?_⟩
    rw [hr]
    exact le_max_left r bar.high
  · rw [Bool.not_eq_true] at hp
    by_cases hm : is_market_hours et = true
    · rw [process_bar_market_eq cfg st et bar hm]
      have hres : resolve_ref st bar = (r, st) := resolve_ref_of_premarket st bar r hr
      by_cases hpos : (resolve_ref st bar).2.in_position.getD false = true
      · by_cases hex : should_exit cfg et = true
        · rw [market_step_pos_exit cfg st et bar hpos hex, hres]
          exact ⟨r, hr, le_refl r⟩
        · rw [Bool.not_eq_true] at hex
          rw [market_step_pos_hold cfg st et bar hpos hex, hres]
          exact ⟨r, hr, le_refl r⟩
      · rw [Bool.not_eq_true] at hpos
        rw [market_step_entry cfg st et bar hpos, entry_step_premarket_high, hres]
        exact ⟨r, hr, le_refl r⟩
    · rw [Bool.not_eq_true] at hm
      rw [process_bar_afterhours_eq cfg st et bar hp hm]
      exact ⟨r, hr, le_refl r⟩


end AlpacaBot

namespace AlpacaBot

/-- C4: the effective reference price for a market-hours bar follows the
fallback chain of lines 114-122: (a) the stored premarket high when present
(over ℚ it is always finite, see the module conventions); else (b) the
recorded previous close; else (c) the bar's own open, which is persisted
into the stored premarket-high slot so that any later bar resolves to it
via case (a); in particular, under case (c) during market hours the state
after the call stores that open as the reference. -/
theorem reference_fallback_chain (cfg : GapConfig) (st : SymState) (bar bar2 : Bar) :
    (∀ r, st.premarket_high = some r → resolve_ref st bar = (r, st)) ∧
    (st.premarket_high = none → ∀ c, st.previous_close = some c →
      resolve_ref st bar = (c, st)) ∧
    (st.premarket_high = none → st.previous_close = none →
      resolve_ref st bar = (bar.open_, { st with premarket_high := some bar.open_ }) ∧
      resolve_ref { st with premarket_high := some bar.open_ } bar2 =
        (bar.open_, { st with premarket_high := some bar.open_ }) ∧
      ∀ et, is_market_hours et = true →
        (process_bar cfg st et bar).1.premarket_high = some bar.open_) := by
  refine ⟨?_, ?_, ?_⟩
  · intro r hr
    exact resolve_ref_of_premarket st bar r hr
  · intro h1 c h2
    unfold resolve_ref
    rw [h1, h2]
  · intro h1 h2
    have hres : resolve_ref st bar = (bar.open_, { st with premarket_high := some bar.open_ }) := by
      unfold resolve_ref
      rw [h1, h2]
    refine ⟨hres, resolve_ref_of_premarket _ bar2 bar.open_ rfl, ?_⟩
    intro et hm
    rw [process_bar_market_eq cfg st et bar hm]
    by_cases hpos : (resolve_ref st bar).2.in_position.getD false = true
    · by_cases hex : should_exit cfg et = true
      · rw [market_step_pos_exit cfg st et bar hpos hex, hres]
      · rw [Bool.not_eq_true] at hex
        rw [market_step_pos_hold cfg st et bar hpos hex, hres]
    · rw [Bool.not_eq_true] at hpos
      rw [market_step_entry cfg st et bar hpos, entry_step_premarket_high, hres]

/-- C4 witness: a symbol with no premarket data and no prior close sees its
first-ever bar with open 50; the reference resolves to 50 and is locked in
for later bars of the run. -/
theorem reference_fallback_chain_witness :
    resolve_ref SymState.init (Bar.mk (some (ETime.mk "2024-01-02" 9 31 0)) 50 51 49 50 0) =
      (50, { SymState.init with premarket_high := some 50 }) ∧
    (process_bar {} SymState.init (ETime.mk "2024-01-02" 9 31 0)
      (Bar.mk (some (ETime.mk "2024-01-02" 9 31 0)) 50 51 49 50 0)).1.premarket_high = some 50 :=
  ⟨((reference_fallback_chain {} SymState.init
      (Bar.mk (some (ETime.mk "2024-01-02" 9 31 0)) 50 51 49 50 0)
      (Bar.mk (some (ETime.mk "2024-01-02" 9 32 0)) 50 52 49 51 0)).2.2 rfl rfl).1,
   ((reference_fallback_chain {} SymState.init
      (Bar.mk (some (ETime.mk "2024-01-02" 9 31 0)) 50 51 49 50 0)
      (Bar.mk (some (ETime.mk "2024-01-02" 9 32 0)) 50 52 49 51 0)).2.2 rfl rfl).2.2
      (ETime.mk "2024-01-02" 9 31 0) (by decide)⟩

end AlpacaBot

namespace AlpacaBot

lemma reset_same_date (cfg : GapConfig) (st : SymState) (d : String)
    (h : st.current_date = some d) :
    reset_daily_state cfg st d = st := by
  unfold reset_daily_state
  rw [if_pos h]

lemma reset_new_date (cfg : GapConfig) (st : SymState) (d : String)
    (h : st.current_date ≠ some d) :
    reset_daily_state cfg st d =
      { st with
        current_date := some d
        first_break_done := some false
        buffer := some (Deque.empty (max 1 cfg.confirm_bars))
        in_position := some false } := by
  unfold reset_daily_state
  rw [if_neg h]

lemma reset_premarket_high (cfg : GapConfig) (st : SymState) (d : String) :
    (reset_daily_state cfg st d).premarket_high = st.premarket_high := by
  unfold reset_daily_state
  split_ifs <;> rfl

lemma reset_current_date (cfg : GapConfig) (st : SymState) (d : String) :
    (reset_daily_state cfg st d).current_date = some d := by
  unfold reset_daily_state
  split_ifs with h
  · exact h
  · rfl

lemma on_bar_some (cfg : GapConfig) (st : SymState) (bar : Bar) (et : ETime)
    (h : bar.timestamp = some et) :
    on_bar cfg st bar = process_bar cfg (reset_daily_state cfg st et.date) et bar := by
  unfold on_bar
  rw [h]

lemma on_bar_none (cfg : GapConfig) (st : SymState) (bar : Bar)
    (h : bar.timestamp = none) :
    on_bar cfg st bar = (st, none) := by
  unfold on_bar
  rw [h]

/-- C7: a bar whose timestamp is `None` produces no signal and leaves every
per-symbol state field (premarket high, previous close, breakout flag,
confirmation buffer, position flag, current trading date) exactly as it was:
`on_bar` returns the input state unchanged, paired with no signal. -/
theorem none_timestamp_skips (cfg : GapConfig) (st : SymState)
    (o h l c : ℚ) (v : Nat) :
    on_bar cfg st (Bar.mk none o h l c v) = (st, none) := rfl

/-- C2: on a date boundary (the stored trading date differs from the bar's
date) the daily reset clears the breakout flag, replaces the buffer by an
empty deque of capacity `max 1 confirm_bars`, clears the position flag,
preserves the stored reference price (`premarket_high`) unchanged, records
the new date, runs exactly once (a second application for the same date is
the identity), and is exactly the state transformation `on_bar` applies
before processing such a bar. -/
theorem daily_reset_exactly_once (cfg : GapConfig) (st : SymState) (d : String)
    (hd : st.current_date ≠ some d) :
    (reset_daily_state cfg st d).first_break_done = some false ∧
    (reset_daily_state cfg st d).buffer = some (Deque.empty (max 1 cfg.confirm_bars)) ∧
    (reset_daily_state cfg st d).in_position = some false ∧
    (reset_daily_state cfg st d).premarket_high = st.premarket_high ∧
    (reset_daily_state cfg st d).current_date = some d ∧
    reset_daily_state cfg (reset_daily_state cfg st d) d = reset_daily_state cfg st d ∧
    ∀ bar et, bar.timestamp = some et → et.date = d →
      on_bar cfg st bar = process_bar cfg (reset_daily_state cfg st d) et bar := by
  have hr := reset_new_date cfg st d hd
  rw [hr]
  refine ⟨rfl, rfl, rfl, rfl, rfl, reset_same_date cfg _ d rfl, ?_⟩
  intro bar et hts hdate
  rw [on_bar_some cfg st bar et hts, hdate, hr]

/-- C2 witness: the reset at a concrete fresh state and date. -/
theorem daily_reset_exactly_once_witness :
    (reset_daily_state {} SymState.init "2024-01-02").first_break_done = some false ∧
    (reset_daily_state {} SymState.init "2024-01-02").premarket_high = SymState.init.premarket_high ∧
    (reset_daily_state {} SymState.init "2024-01-02").in_position = some false :=
  ⟨(daily_reset_exactly_once {} SymState.init "2024-01-02" (by simp [SymState.init])).1,
   (daily_reset_exactly_once {} SymState.init "2024-01-02" (by simp [SymState.init])).2.2.2.1,
   (daily_reset_exactly_once {} SymState.init "2024-01-02" (by simp [SymState.init])).2.2.1⟩

/-- C10: when a bar with a new trading date arrives while `in_position` is
still true, the daily reset drops the position flag to false, and the call
emits no SELL: the open position is dropped silently at the date boundary. -/
theorem rollover_drops_position_silently (cfg : GapConfig) (st : SymState)
    (bar : Bar) (et : ETime)
    (het : bar.timestamp = some et)
    (_hpos : st.in_position = some true)
    (hd : st.current_date ≠ some et.date) :
    (reset_daily_state cfg st et.date).in_position = some false ∧
    (on_bar cfg st bar).2 ≠ some SignalType.sell := by
  have hr := reset_new_date cfg st et.date hd
  constructor
  · rw [hr]
  · rw [on_bar_some cfg st bar et het]
    intro hsell
    have hres := process_bar_sell cfg (reset_daily_state cfg st et.date) et bar hsell
    rw [hr] at hres
    exact absurd hres.1 (by simp)

/-- C10 witness: a position opened on 2024-01-02 is silently dropped by the
first bar of 2024-01-03. -/
theorem rollover_drops_position_silently_witness :
    (reset_daily_state {}
      (SymState.mk (some 50) none (some true) none (some true) (some "2024-01-02"))
      "2024-01-03").in_position = some false ∧
    (on_bar {}
      (SymState.mk (some 50) none (some true) none (some true) (some "2024-01-02"))
      (Bar.mk (some (ETime.mk "2024-01-03" 9 31 0)) 50 51 49 50 0)).2 ≠
      some SignalType.sell :=
  rollover_drops_position_silently {}
    (SymState.mk (some 50) none (some true) none (some true) (some "2024-01-02"))
    (Bar.mk (some (ETime.mk "2024-01-03" 9 31 0)) 50 51 49 50 0)
    (ETime.mk "2024-01-03" 9 31 0) rfl rfl (by decide)

end AlpacaBot

namespace AlpacaBot

lemma broke_pred_iff (cfg : GapConfig) (r : ℚ) (bar : Bar) (buf : Deque) :
    broke_pred cfg r bar buf = true ↔
      (r ≤ bar.high ∧ r ≤ bar.close ∧
        (cfg.confirm_bars = 0 ∨
          (buf.data.length = cfg.confirm_bars ∧ ∀ x ∈ buf.data, r ≤ x))) := by
  unfold broke_pred
  dsimp only
  by_cases hc : 0 < cfg.confirm_bars
  · rw [if_pos hc]
    simp only [Bool.and_eq_true, decide_eq_true_eq, List.all_eq_true]
    constructor
    · rintro ⟨⟨⟨h1, h2⟩, h3⟩, h4⟩
      exact ⟨h1, h2, Or.inr ⟨h3, h4⟩⟩
    · rintro ⟨h1, h2, h3 | h3⟩
      · omega
      · exact ⟨⟨⟨h1, h2⟩, h3.1⟩, h3.2⟩
  · rw [if_neg hc]
    have hc0 : cfg.confirm_bars = 0 := by omega
    simp [hc0]

/-- C5: relative to the state the daily reset has produced for the bar's
date (clearing of a stale position at a date boundary is claim C10's
subject), `in_position` becomes true exactly on an emitted BUY and false
exactly on an emitted SELL: a BUY is emitted only while the position flag
is off and leaves it on, a SELL only while it is on and leaves it off, no
signal leaves it untouched, and FLAT is never emitted. -/
theorem position_flag_transitions (cfg : GapConfig) (st : SymState) (bar : Bar)
    (et : ETime) (het : bar.timestamp = some et) :
    ((on_bar cfg st bar).2 = some SignalType.buy →
      (reset_daily_state cfg st et.date).in_position.getD false = false ∧
      (on_bar cfg st bar).1.in_position = some true) ∧
    ((on_bar cfg st bar).2 = some SignalType.sell →
      (reset_daily_state cfg st et.date).in_position = some true ∧
      (on_bar cfg st bar).1.in_position = some false) ∧
    ((on_bar cfg st bar).2 = none →
      (on_bar cfg st bar).1.in_position = (reset_daily_state cfg st et.date).in_position) ∧
    (on_bar cfg st bar).2 ≠ some SignalType.flat := by
  rw [on_bar_some cfg st bar et het]
  refine ⟨?_, ?_, ?_, ?_⟩
  · intro h
    exact ⟨(process_bar_buy cfg _ et bar h).1, (process_bar_buy cfg _ et bar h).2.2.1⟩
  · intro h
    exact ⟨(process_bar_sell cfg _ et bar h).1, (process_bar_sell cfg _ et bar h).2.1⟩
  · intro h
    exact (process_bar_none cfg _ et bar h).1
  · exact process_bar_no_flat cfg _ et bar

/-- C5 witness: on a fresh state the first qualifying market-hours bar emits
BUY with the position flag off before and on after. -/
theorem position_flag_transitions_witness :
    (on_bar {} SymState.init
      (Bar.mk (some (ETime.mk "2024-01-02" 9 31 0)) 50 51 49 50 0)).2 = some SignalType.buy ∧
    (reset_daily_state {} SymState.init "2024-01-02").in_position.getD false = false ∧
    (on_bar {} SymState.init
      (Bar.mk (some (ETime.mk "2024-01-02" 9 31 0)) 50 51 49 50 0)).1.in_position = some true :=
  have hb : (on_bar {} SymState.init
      (Bar.mk (some (ETime.mk "2024-01-02" 9 31 0)) 50 51 49 50 0)).2 = some SignalType.buy := by
    decide
  ⟨hb,
   ((position_flag_transitions {} SymState.init
      (Bar.mk (some (ETime.mk "2024-01-02" 9 31 0)) 50 51 49 50 0)
      (ETime.mk "2024-01-02" 9 31 0) rfl).1 hb).1,
   ((position_flag_transitions {} SymState.init
      (Bar.mk (some (ETime.mk "2024-01-02" 9 31 0)) 50 51 49 50 0)
      (ETime.mk "2024-01-02" 9 31 0) rfl).1 hb).2⟩

end AlpacaBot

namespace AlpacaBot

/-- C1: for a market-hours bar whose symbol is not in position (after the
daily reset for the bar's date), within the entry cutoff window and with no
breakout fired yet for the date, the bar's close is appended to the
confirmation buffer, and BUY is emitted if and only if the bar's high and
close are both at or above the effective reference price and, when a
confirmation count is configured, the buffer holds exactly that many closes
all at or above the reference (with confirmation count 0 the single bar
suffices); on BUY both the breakout flag and the position flag become
true. -/
theorem breakout_buy_iff (cfg : GapConfig) (st : SymState) (bar : Bar) (et : ETime)
    (het : bar.timestamp = some et)
    (hm : is_market_hours et = true)
    (hpos : (reset_daily_state cfg st et.date).in_position.getD false = false)
    (hcut : ¬ (cfg.trade_cutoff_minute : Int) < minutes_since_open et)
    (hflag : (reset_daily_state cfg st et.date).first_break_done.getD false = false) :
    (on_bar cfg st bar).1.buffer =
      some (((reset_daily_state cfg st et.date).buffer.getD
        (Deque.empty (max 1 cfg.confirm_bars))).push bar.close) ∧
    ((on_bar cfg st bar).2 = some SignalType.buy ↔
      ((resolve_ref (reset_daily_state cfg st et.date) bar).1 ≤ bar.high ∧
       (resolve_ref (reset_daily_state cfg st et.date) bar).1 ≤ bar.close ∧
       (cfg.confirm_bars = 0 ∨
         ((((reset_daily_state cfg st et.date).buffer.getD
             (Deque.empty (max 1 cfg.confirm_bars))).push bar.close).data.length =
            cfg.confirm_bars ∧
          ∀ x ∈ (((reset_daily_state cfg st et.date).buffer.getD
             (Deque.empty (max 1 cfg.confirm_bars))).push bar.close).data,
            (resolve_ref (reset_daily_state cfg st et.date) bar).1 ≤ x)))) ∧
    ((on_bar cfg st bar).2 = some SignalType.buy →
      (on_bar cfg st bar).1.first_break_done = some true ∧
      (on_bar cfg st bar).1.in_position = some true) := by
  rw [on_bar_some cfg st bar et het, process_bar_market_eq cfg _ et bar hm]
  have hpos2 : (resolve_ref (reset_daily_state cfg st et.date) bar).2.in_position.getD false = false := by
    rw [resolve_ref_in_position]
    exact hpos
  rw [market_step_entry cfg _ et bar hpos2]
  have hflag2 : (resolve_ref (reset_daily_state cfg st et.date) bar).2.first_break_done.getD false = false := by
    rw [resolve_ref_first_break_done]
    exact hflag
  rw [entry_step_eval cfg _ _ et bar hcut hflag2, resolve_ref_buffer]
  by_cases hbroke : broke_pred cfg (resolve_ref (reset_daily_state cfg st et.date) bar).1 bar
      (((reset_daily_state cfg st et.date).buffer.getD
        (Deque.empty (max 1 cfg.confirm_bars))).push bar.close) = true
  · rw [if_pos hbroke]
    refine ⟨rfl, ?_, fun _ => ⟨rfl, rfl⟩⟩
    rw [broke_pred_iff] at hbroke
    exact ⟨fun _ => hbroke, fun _ => rfl⟩
  · rw [if_neg hbroke]
    refine ⟨rfl, ?_, fun h => absurd h (by simp)⟩
    rw [broke_pred_iff] at hbroke
    constructor
    · intro h
      exact absurd h (by simp)
    · intro hrhs
      exact absurd hrhs hbroke

end AlpacaBot

namespace AlpacaBot

/-- C1 witness: with confirmation count 0 a single qualifying bar
(reference 50 from the bar's own open, high 51, close 50) immediately
yields BUY and sets both flags; with confirmation count 2 the same single
bar yields no BUY. -/
theorem breakout_buy_iff_witness :
    (on_bar {} SymState.init
      (Bar.mk (some (ETime.mk "2024-01-02" 9 31 0)) 50 51 49 50 0)).2 = some SignalType.buy ∧
    (on_bar {} SymState.init
      (Bar.mk (some (ETime.mk "2024-01-02" 9 31 0)) 50 51 49 50 0)).1.first_break_done = some true ∧
    (on_bar {} SymState.init
      (Bar.mk (some (ETime.mk "2024-01-02" 9 31 0)) 50 51 49 50 0)).1.in_position = some true ∧
    ¬ (on_bar { confirm_bars := 2 } SymState.init
      (Bar.mk (some (ETime.mk "2024-01-02" 9 31 0)) 50 51 49 50 0)).2 = some SignalType.buy :=
  have thm0 := breakout_buy_iff {} SymState.init
    (Bar.mk (some (ETime.mk "2024-01-02" 9 31 0)) 50 51 49 50 0)
    (ETime.mk "2024-01-02" 9 31 0) rfl (by decide) (by decide) (by decide) (by decide)
  have thm2 := breakout_buy_iff { confirm_bars := 2 } SymState.init
    (Bar.mk (some (ETime.mk "2024-01-02" 9 31 0)) 50 51 49 50 0)
    (ETime.mk "2024-01-02" 9 31 0) rfl (by decide) (by decide) (by decide) (by decide)
  have hb := thm0.2.1.mpr (by decide)
  ⟨hb, (thm0.2.2 hb).1, (thm0.2.2 hb).2, fun h => absurd (thm2.2.1.mp h) (by decide)⟩

end AlpacaBot

namespace AlpacaBot

lemma run_no_buy_when_flagged (cfg : GapConfig) (d : String) :
    ∀ (bars : List Bar) (st : SymState),
      (∀ b ∈ bars, ∃ et, b.timestamp = some et ∧ et.date = d) →
      st.current_date = some d → st.first_break_done = some true →
      ((run_bars cfg st bars).2.count (some SignalType.buy)) = 0
  | [], _, _, _, _ => by simp [run_bars]
  | b :: bs, st, hall, hcd, hflag => by
    obtain ⟨et, hts, hdate⟩ := hall b (List.mem_cons_self b bs)
    have hob : on_bar cfg st b = process_bar cfg st et b := by
      rw [on_bar_some cfg st b et hts, hdate, reset_same_date cfg st d hcd]
    have hnotbuy : (process_bar cfg st et b).2 ≠ some SignalType.buy := by
      intro hb
      have hf := (process_bar_buy cfg st et b hb).2.1
      rw [hflag] at hf
      simp at hf
    have hpostflag : (process_bar cfg st et b).1.first_break_done = some true := by
      cases hsig : (process_bar cfg st et b).2 with
      | none => rw [(process_bar_none cfg st et b hsig).2, hflag]
      | some s =>
        cases s with
        | buy => exact absurd hsig hnotbuy
        | sell => rw [(process_bar_sell cfg st et b hsig).2.2.1, hflag]
        | flat => exact absurd hsig (process_bar_no_flat cfg st et b)
    have hpostcd : (process_bar cfg st et b).1.current_date = some d := by
      rw [process_bar_current_date, hcd]
    have hall' : ∀ x ∈ bs, ∃ et2, x.timestamp = some et2 ∧ et2.date = d :=
      fun x hx => hall x (List.mem_cons_of_mem b hx)
    have ihz := run_no_buy_when_flagged cfg d bs (process_bar cfg st et b).1 hall' hpostcd hpostflag
    simp only [run_bars, hob, List.count_cons, ihz, beq_iff_eq]
    rw [if_neg hnotbuy]

end AlpacaBot

namespace AlpacaBot

/-- C6: at most one BUY per symbol per trading date: over any list of bars
that all carry timestamps of one trading date `d`, starting from any state,
the signal stream contains at most one BUY (once the breakout flag is set
by a BUY it blocks every later entry until the date changes). -/
theorem at_most_one_buy_per_date (cfg : GapConfig) (d : String)
    (bars : List Bar) (st : SymState)
    (hall : ∀ b ∈ bars, ∃ et, b.timestamp = some et ∧ et.date = d) :
    ((run_bars cfg st bars).2.count (some SignalType.buy)) ≤ 1 := by
  induction bars generalizing st with
  | nil => simp [run_bars]
  | cons b bs ih =>
    obtain ⟨et, hts, hdate⟩ := hall b (List.mem_cons_self b bs)
    have hall' : ∀ x ∈ bs, ∃ et2, x.timestamp = some et2 ∧ et2.date = d :=
      fun x hx => hall x (List.mem_cons_of_mem b hx)
    have hob := on_bar_some cfg st b et hts
    by_cases hbuy : (on_bar cfg st b).2 = some SignalType.buy
    · have hb2 : (process_bar cfg (reset_daily_state cfg st et.date) et b).2 = some SignalType.buy := by
        rw [← hob]
        exact hbuy
      have hflag : (on_bar cfg st b).1.first_break_done = some true := by
        rw [hob]
        exact (process_bar_buy cfg _ et b hb2).2.2.2.1
      have hcd : (on_bar cfg st b).1.current_date = some d := by
        rw [hob, process_bar_current_date, reset_current_date, hdate]
      have hz := run_no_buy_when_flagged cfg d bs (on_bar cfg st b).1 hall' hcd hflag
      simp only [run_bars, List.count_cons, hz, hbuy, beq_iff_eq]
      simp
    · simp only [run_bars, List.count_cons, beq_iff_eq]
      rw [if_neg hbuy]
      simpa using ih (on_bar cfg st b).1 hall'

/-- C6 witness: two qualifying same-date bars produce exactly one BUY in the
stream, whose BUY count is at most 1. -/
theorem at_most_one_buy_per_date_witness :
    ((run_bars {} SymState.init
      [Bar.mk (some (ETime.mk "2024-01-02" 9 31 0)) 50 51 49 50 0,
       Bar.mk (some (ETime.mk "2024-01-02" 9 32 0)) 50 52 49 51 0]).2.count
        (some SignalType.buy)) ≤ 1 :=
  at_most_one_buy_per_date {} "2024-01-02"
    [Bar.mk (some (ETime.mk "2024-01-02" 9 31 0)) 50 51 49 50 0,
     Bar.mk (some (ETime.mk "2024-01-02" 9 32 0)) 50 52 49 51 0]
    SymState.init
    (by
      intro b hb
      simp only [List.mem_cons, List.not_mem_nil, or_false] at hb
      rcases hb with rfl | rfl
      · exact ⟨ETime.mk "2024-01-02" 9 31 0, rfl, rfl⟩
      · exact ⟨ETime.mk "2024-01-02" 9 32 0, rfl, rfl⟩)

end AlpacaBot

namespace AlpacaBot

lemma on_bar_cfg_eq (cfg1 cfg2 : GapConfig) (st : SymState) (bar : Bar)
    (h1 : cfg1.confirm_bars = cfg2.confirm_bars)
    (h2 : cfg1.trade_cutoff_minute = cfg2.trade_cutoff_minute)
    (h3 : cfg1.exit_time_hour = cfg2.exit_time_hour)
    (h4 : cfg1.exit_time_minute = cfg2.exit_time_minute) :
    on_bar cfg1 st bar = on_bar cfg2 st bar := by
  cases cfg1 with
  | mk g1 p1 f1 cb1 tc1 eh1 em1 =>
    cases cfg2 with
    | mk g2 p2 f2 cb2 tc2 eh2 em2 =>
      dsimp only at h1 h2 h3 h4
      subst h1 h2 h3 h4
      rfl

/-- C8: the emitted signal and the resulting state of `on_bar` do not
depend on `min_gap_pct`, `max_price` or `max_float_m`: two engines whose
configurations agree on everything except those three produce identical
state evolutions and identical signal streams on every bar list. -/
theorem gap_params_irrelevant (cfg1 cfg2 : GapConfig) (st : SymState)
    (bars : List Bar)
    (h1 : cfg1.confirm_bars = cfg2.confirm_bars)
    (h2 : cfg1.trade_cutoff_minute = cfg2.trade_cutoff_minute)
    (h3 : cfg1.exit_time_hour = cfg2.exit_time_hour)
    (h4 : cfg1.exit_time_minute = cfg2.exit_time_minute) :
    run_bars cfg1 st bars = run_bars cfg2 st bars := by
  induction bars generalizing st with
  | nil => rfl
  | cons b bs ih =>
    simp only [run_bars]
    rw [on_bar_cfg_eq cfg1 cfg2 st b h1 h2 h3 h4, ih (on_bar cfg2 st b).1]

/-- C8 witness: a run with extreme gap, price and float parameters matches
the default-parameter run on a two-bar stream. -/
theorem gap_params_irrelevant_witness :
    run_bars { min_gap_pct := 99, max_price := 1, max_float_m := 7 } SymState.init
      [Bar.mk (some (ETime.mk "2024-01-02" 9 31 0)) 50 51 49 50 0,
       Bar.mk (some (ETime.mk "2024-01-02" 15 0 0)) 50 52 49 51 0] =
    run_bars {} SymState.init
      [Bar.mk (some (ETime.mk "2024-01-02" 9 31 0)) 50 51 49 50 0,
       Bar.mk (some (ETime.mk "2024-01-02" 15 0 0)) 50 52 49 51 0] :=
  gap_params_irrelevant { min_gap_pct := 99, max_price := 1, max_float_m := 7 } {}
    SymState.init
    [Bar.mk (some (ETime.mk "2024-01-02" 9 31 0)) 50 51 49 50 0,
     Bar.mk (some (ETime.mk "2024-01-02" 15 0 0)) 50 52 49 51 0]
    rfl rfl rfl rfl

/-- C9: once the stored reference (`premarket_high`) is set for a symbol it
is never cleared for the remainder of the run and never decreases, across
date rollovers included: the daily reset preserves it, premarket bars only
raise it to a maximum, and market-hours processing writes it only when it
is absent, so the previous-close fallback can never be consulted again. -/
theorem premarket_high_monotone_run (cfg : GapConfig) (bars : List Bar)
    (st : SymState) (r : ℚ) (hr : st.premarket_high = some r) :
    ∃ q, (run_bars cfg st bars).1.premarket_high = some q ∧ r ≤ q := by
  induction bars generalizing st r with
  | nil => exact ⟨r, hr, le_refl r⟩
  | cons b bs ih =>
    have hstep : ∃ q, (on_bar cfg st b).1.premarket_high = some q ∧ r ≤ q := by
      cases hts : b.timestamp with
      | none =>
        rw [on_bar_none cfg st b hts]
        exact ⟨r, hr, le_refl r⟩
      | some et =>
        rw [on_bar_some cfg st b et hts]
        have hr1 : (reset_daily_state cfg st et.date).premarket_high = some r := by
          rw [reset_premarket_high]
          exact hr
        exact process_bar_premarket_mono cfg _ et b r hr1
    obtain ⟨q, hq, hrq⟩ := hstep
    obtain ⟨q2, hq2, hqq2⟩ := ih (on_bar cfg st b).1 q hq
    refine ⟨q2, ?_, le_trans hrq hqq2⟩
    simp only [run_bars]
    exact hq2

/-- C9 witness: a reference of 100 set on 2024-01-02 survives the rollover
into 2024-01-03 and a lower premarket high of 90, ending at least 100. -/
theorem premarket_high_monotone_run_witness :
    ∃ q, (run_bars {}
      (SymState.mk (some 100) none (some false) none (some false) (some "2024-01-02"))
      [Bar.mk (some (ETime.mk "2024-01-03" 9 0 0)) 89 90 88 89 0]).1.premarket_high =
        some q ∧ (100 : ℚ) ≤ q :=
  premarket_high_monotone_run {}
    [Bar.mk (some (ETime.mk "2024-01-03" 9 0 0)) 89 90 88 89 0]
    (SymState.mk (some 100) none (some false) none (some false) (some "2024-01-02"))
    100 rfl

end AlpacaBot

namespace AlpacaBot

/-- C3 counterexample: the stored reference is NOT the highest premarket
high "for the current trading date" and is NOT reset at date rollover.
Day one has premarket high 100; day two's only premarket bar has high 90;
after processing both bars the stored reference is still 100, not day
two's premarket high 90 (the daily reset deliberately preserves it, line
84 of the source). -/
theorem reference_reset_at_rollover_cex :
    (run_bars {} SymState.init
      [Bar.mk (some (ETime.mk "2024-01-02" 9 0 0)) 99 100 98 99 0,
       Bar.mk (some (ETime.mk "2024-01-03" 9 0 0)) 89 90 88 89 0]).1.premarket_high =
      some 100 ∧ (100 : ℚ) ≠ 90 := by
  constructor
  · decide
  · decide

/-- C3 (amended): the stored reference price is the running maximum of all
premarket highs observed so far in the run: a premarket bar sets it to the
bar's high when absent and raises it to the maximum with the bar's high
when present (hence monotonically non-decreasing within premarket), and
the daily reset preserves it unchanged rather than resetting it (the
previous-close and first-bar-open fallbacks apply only while it is
absent, claim C4). -/
theorem reference_accumulates (cfg : GapConfig) (st : SymState) (bar : Bar)
    (et : ETime) (het : bar.timestamp = some et)
    (hpre : is_premarket et = true) :
    (st.premarket_high = none →
      (on_bar cfg st bar).1.premarket_high = some bar.high) ∧
    (∀ r, st.premarket_high = some r →
      (on_bar cfg st bar).1.premarket_high = some (max r bar.high) ∧
      r ≤ max r bar.high) ∧
    (∀ d, (reset_daily_state cfg st d).premarket_high = st.premarket_high) := by
  rw [on_bar_some cfg st bar et het, process_bar_premarket_eq cfg _ et bar hpre]
  refine ⟨?_, ?_, fun d => reset_premarket_high cfg st d⟩
  · intro h
    show some (premarket_update (reset_daily_state cfg st et.date).premarket_high bar.high) =
      some bar.high
    rw [reset_premarket_high, h]
    rfl
  · intro r hr
    constructor
    · show some (premarket_update (reset_daily_state cfg st et.date).premarket_high bar.high) =
        some (max r bar.high)
      rw [reset_premarket_high, hr]
      rfl
    · exact le_max_left r bar.high

/-- C3 witness (amended claim): a premarket bar with high 90 raises a
stored reference of 100 to `max 100 90`, which is no smaller than 100. -/
theorem reference_accumulates_witness :
    (on_bar {}
      (SymState.mk (some 100) none (some false) none (some false) (some "2024-01-03"))
      (Bar.mk (some (ETime.mk "2024-01-03" 9 0 0)) 89 90 88 89 0)).1.premarket_high =
      some (max 100 90) ∧ (100 : ℚ) ≤ max 100 90 :=
  (reference_accumulates {}
    (SymState.mk (some 100) none (some false) none (some false) (some "2024-01-03"))
    (Bar.mk (some (ETime.mk "2024-01-03" 9 0 0)) 89 90 88 89 0)
    (ETime.mk "2024-01-03" 9 0 0) rfl (by decide)).2.1 100 rfl

end AlpacaBot
